import Mathlib

/-!
Shallow embedding of the offline-first shopping-list reconciliation engine
(the App component: loadItems, syncPendingChanges, handleAddItem,
handleUpdateItem, handleRemoveItem, toggleItemCompletion, calculateTotal,
saveToStorage).  The repository contains two revisions of the App component;
the later revision (the one with input validation, the local-id guards on
update/toggle, the per-record replay retry and the completed filter in
calculateTotal) is the one embedded here.

Modelling choices:
* JS numbers are modelled as Int (quantities, parseInt results) and Rat
  (prices and totals); timestamps (Date().toISOString()) and Date.now() are
  passed in as parameters.
* The Firestore adapter is modelled by outcome parameters: a create either
  succeeds with a server-assigned id or fails, an update/delete either
  succeeds or fails.  Each operation additionally returns the list of
  remote calls it issued (attempted calls included), so that properties
  about which calls are made can be stated.
* localStorage's single 'shopping-items' key is modelled as the parsed
  list of items.
-/

/-- ShoppingItem: the unit of the shopping list. -/
structure Item where
  id : String
  name : String
  quantity : Int
  unitPrice : Rat
  total : Rat
  completed : Bool
  createdAt : String
  updatedAt : String
deriving DecidableEq, Repr

/-- The component state owned by the engine: the in-memory collection
(items), the local snapshot store (localStorage key 'shopping-items')
and the pending-mutation queue (pendingChanges). -/
structure AppState where
  items : List Item
  localStorage : List Item
  pendingChanges : List Item
deriving DecidableEq, Repr

/-- The newItem form state, with the unit price already parsed
(parseCurrency : String → number is applied at the input boundary in the
source and is not needed by any claim). -/
structure NewItemInput where
  name : String
  quantity : Int
  unitPrice : Rat
deriving DecidableEq, Repr

/-- Outcome of a remote create (addDoc): a server-assigned id, or failure. -/
inductive CreateOutcome where
  | ok (newId : String)
  | err
deriving DecidableEq, Repr

/-- Outcome of a remote update/delete (updateDoc / deleteDoc). -/
inductive CallOutcome where
  | ok
  | err
deriving DecidableEq, Repr

/-- A remote-store call issued by the engine.  createReplay carries the id
of the queued record being replayed (the payload sent to addDoc strips the
id; the field only records which queue record produced the call). -/
inductive RemoteCall where
  | createNew
  | createReplay (recordId : String)
  | update (docId : String)
  | delete (docId : String)
deriving DecidableEq, Repr

/-- Character-list version of String.startsWith. -/
def listStartsWith : List Char → List Char → Bool
  | [], _ => true
  | _ :: _, [] => false
  | p :: ps, c :: cs => p == c && listStartsWith ps cs

/-- Character-list substring occurrence test. -/
def listHasSub (pat : List Char) : List Char → Bool
  | [] => listStartsWith pat []
  | c :: cs => listStartsWith pat (c :: cs) || listHasSub pat cs

/-- id.includes('local-') : the id is in the local identifier space. -/
def isLocalId (s : String) : Bool :=
  listHasSub "local-".toList s.toList

/-- local-${Date.now()} : the local temporary id. -/
def localIdOf (nowMs : Nat) : String :=
  "local-" ++ toString nowMs

/-- saveToStorage: setItems(updatedItems) plus
localStorage.setItem('shopping-items', JSON.stringify(updatedItems)). -/
def saveToStorage (updatedItems : List Item) (st : AppState) : AppState :=
  { st with items := updatedItems, localStorage := updatedItems }

/-- The item built by handleAddItem from the form state. -/
def mkNewItem (iid : String) (inp : NewItemInput) (now : String) : Item :=
  { id := iid
    name := inp.name
    quantity := inp.quantity
    unitPrice := inp.unitPrice
    total := (inp.quantity : Rat) * inp.unitPrice
    completed := false
    createdAt := now
    updatedAt := now }

/-- handleAddItem: validation, then the online path (addDoc first, state
updated with the Firebase id; on failure fall back to a local id and
enqueue) or the offline path (local id, enqueue). -/
def handleAddItem (isOnline : Bool) (oc : CreateOutcome) (nowMs : Nat)
    (now : String) (newItem : NewItemInput) (st : AppState) :
    AppState × List RemoteCall :=
  if newItem.name = "" ∨ newItem.quantity ≤ 0 then (st, [])
  else
    if isOnline then
      match oc with
      | CreateOutcome.ok fid =>
          let it := mkNewItem fid newItem now
          (saveToStorage (st.items ++ [it]) st, [RemoteCall.createNew])
      | CreateOutcome.err =>
          let it := mkNewItem (localIdOf nowMs) newItem now
          ({ saveToStorage (st.items ++ [it]) st with
              pendingChanges := st.pendingChanges ++ [it] },
           [RemoteCall.createNew])
    else
      let it := mkNewItem (localIdOf nowMs) newItem now
      ({ saveToStorage (st.items ++ [it]) st with
          pendingChanges := st.pendingChanges ++ [it] }, [])

/-- handleUpdateItem: find the item, build newData with the recomputed
total, write memory+snapshot synchronously, then updateDoc only when
online with a remote-space id (enqueueing on failure), otherwise enqueue. -/
def handleUpdateItem (isOnline : Bool) (oc : CallOutcome) (now : String)
    (itemId : String) (newItem : NewItemInput) (st : AppState) :
    AppState × List RemoteCall :=
  match st.items.find? (fun it => it.id == itemId) with
  | none => (st, [])
  | some itemToUpdate =>
      let newData : Item :=
        { itemToUpdate with
            name := newItem.name
            quantity := newItem.quantity
            unitPrice := newItem.unitPrice
            total := (newItem.quantity : Rat) * newItem.unitPrice
            updatedAt := now }
      let updatedItems := st.items.map (fun it => if it.id == itemId then newData else it)
      let st1 := saveToStorage updatedItems st
      if isOnline && !isLocalId itemId then
        match oc with
        | CallOutcome.ok => (st1, [RemoteCall.update newData.id])
        | CallOutcome.err =>
            ({ st1 with pendingChanges := st1.pendingChanges ++ [newData] },
             [RemoteCall.update newData.id])
      else
        ({ st1 with pendingChanges := st1.pendingChanges ++ [newData] }, [])

/-- toggleItemCompletion: negate completed, refresh updatedAt, write
memory+snapshot, then updateDoc only when online with a remote-space id
(enqueueing on failure), otherwise enqueue. -/
def toggleItemCompletion (isOnline : Bool) (oc : CallOutcome) (now : String)
    (itemId : String) (st : AppState) : AppState × List RemoteCall :=
  match st.items.find? (fun it => it.id == itemId) with
  | none => (st, [])
  | some itemToUpdate =>
      let updatedItem : Item :=
        { itemToUpdate with
            completed := !itemToUpdate.completed
            updatedAt := now }
      let updatedItems := st.items.map (fun it => if it.id == itemId then updatedItem else it)
      let st1 := saveToStorage updatedItems st
      if isOnline && !isLocalId itemId then
        match oc with
        | CallOutcome.ok => (st1, [RemoteCall.update updatedItem.id])
        | CallOutcome.err =>
            ({ st1 with pendingChanges := st1.pendingChanges ++ [updatedItem] },
             [RemoteCall.update updatedItem.id])
      else
        ({ st1 with pendingChanges := st1.pendingChanges ++ [updatedItem] }, [])

/-- handleRemoveItem: filter the item out of memory+snapshot, deleteDoc
only when online with a remote-space id (failures fire-and-forget), and
drop any queue entry carrying the id. -/
def handleRemoveItem (isOnline : Bool) (oc : CallOutcome) (itemId : String)
    (st : AppState) : AppState × List RemoteCall :=
  let updatedItems := st.items.filter (fun it => !(it.id == itemId))
  let st1 := saveToStorage updatedItems st
  let calls := if isOnline && !isLocalId itemId then [RemoteCall.delete itemId] else []
  ({ st1 with pendingChanges := st1.pendingChanges.filter (fun it => !(it.id == itemId)) },
   calls)

/-- loadItems: read the local snapshot; when online, getDocs — a non-empty
remote list overwrites memory+snapshot, an empty remote list (or a remote
failure, modelled by none) falls back to a non-empty local snapshot; when
offline, use the local snapshot if non-empty. -/
def loadItems (navigatorOnLine : Bool) (remoteList : Option (List Item))
    (st : AppState) : AppState :=
  let localData := st.localStorage
  if navigatorOnLine then
    match remoteList with
    | some fetchedItems =>
        if fetchedItems.length > 0 then saveToStorage fetchedItems st
        else if localData.length > 0 then { st with items := localData }
        else st
    | none =>
        if localData.length > 0 then { st with items := localData } else st
  else
    if localData.length > 0 then { st with items := localData } else st

/-- The id remap used after a successful replay create: every element whose
id equals the old local id gets the newly assigned id. -/
def remapId (oldId newId : String) (l : List Item) : List Item :=
  l.map (fun it => if it.id == oldId then { it with id := newId } else it)

/-- The replay loop of syncPendingChanges: walk the queue snapshot in
enqueue order; a remote-space record is updateDoc'ed, a local-space record
is addDoc'ed and on success memory+snapshot are remapped to the new id;
failed records are collected (in order) as the new queue.  Returns the
final state, the failed records and the trace of issued remote calls. -/
def replayLoop (oc : Item → CreateOutcome) :
    List Item → AppState → AppState × List Item × List RemoteCall
  | [], st => (st, [], [])
  | item :: rest, st =>
      if !isLocalId item.id then
        match oc item with
        | CreateOutcome.ok _ =>
            let r := replayLoop oc rest st
            (r.1, r.2.1, RemoteCall.update item.id :: r.2.2)
        | CreateOutcome.err =>
            let r := replayLoop oc rest st
            (r.1, item :: r.2.1, RemoteCall.update item.id :: r.2.2)
      else
        match oc item with
        | CreateOutcome.ok newId =>
            let st1 := { st with
              items := remapId item.id newId st.items
              localStorage := remapId item.id newId st.localStorage }
            let r := replayLoop oc rest st1
            (r.1, r.2.1, RemoteCall.createReplay item.id :: r.2.2)
        | CreateOutcome.err =>
            let r := replayLoop oc rest st
            (r.1, item :: r.2.1, RemoteCall.createReplay item.id :: r.2.2)

/-- syncPendingChanges: no-op on an empty queue, otherwise run the replay
loop on the queue snapshot and install the failed records as the new
pending queue. -/
def syncPendingChanges (oc : Item → CreateOutcome) (st : AppState) :
    AppState × List RemoteCall :=
  if st.pendingChanges.isEmpty then (st, [])
  else
    let r := replayLoop oc st.pendingChanges st
    ({ r.1 with pendingChanges := r.2.1 }, r.2.2)

/-- calculateTotal: items.filter(item not completed).reduce(sum + total, 0). -/
def calculateTotal (st : AppState) : Rat :=
  (st.items.filter (fun it => !it.completed)).foldl (fun sum it => sum + it.total) 0

/-- Specification-side aggregate: the sum of the total field over exactly
the items whose completed flag is false. -/
def pendingTotalSpec (l : List Item) : Rat :=
  (l.map (fun it => if it.completed then 0 else it.total)).sum

/-- The derived-total invariant: every item's total equals quantity times
unitPrice. -/
def totalsOk (l : List Item) : Bool :=
  l.all (fun it => it.total == (it.quantity : Rat) * it.unitPrice)

/-- Whether the record failed its replay attempt under the given adapter
outcomes. -/
def syncFails (oc : Item → CreateOutcome) (r : Item) : Bool :=
  match oc r with
  | CreateOutcome.ok _ => false
  | CreateOutcome.err => true

/-- Whether a remote call is an update/delete addressed at a local-space id. -/
def usesLocalDocId : RemoteCall → Bool
  | RemoteCall.update docId => isLocalId docId
  | RemoteCall.delete docId => isLocalId docId
  | _ => false

/-- Whether a remote call is a replay create produced by a queue record
with the given id. -/
def createForId (i : String) : RemoteCall → Bool
  | RemoteCall.createReplay recordId => recordId == i
  | _ => false

/-- A user-driven mutation (or a replay pass), with its environment:
connectivity, adapter outcomes and clock values. -/
inductive Op where
  | addOp (isOnline : Bool) (oc : CreateOutcome) (nowMs : Nat) (now : String) (inp : NewItemInput)
  | updateOp (isOnline : Bool) (oc : CallOutcome) (now : String) (itemId : String) (inp : NewItemInput)
  | toggleOp (isOnline : Bool) (oc : CallOutcome) (now : String) (itemId : String)
  | removeOp (isOnline : Bool) (oc : CallOutcome) (itemId : String)
  | syncOp (oc : Item → CreateOutcome)

/-- Apply one operation to the state (discarding the call trace). -/
def applyOp (st : AppState) : Op → AppState
  | Op.addOp b oc ms now inp => (handleAddItem b oc ms now inp st).1
  | Op.updateOp b oc now iid inp => (handleUpdateItem b oc now iid inp st).1
  | Op.toggleOp b oc now iid => (toggleItemCompletion b oc now iid st).1
  | Op.removeOp b oc iid => (handleRemoveItem b oc iid st).1
  | Op.syncOp oc => (syncPendingChanges oc st).1

/-- Apply a sequence of operations in order. -/
def applyOps (ops : List Op) (st : AppState) : AppState :=
  ops.foldl applyOp st

/-- Remote-assigned ids never carry the local prefix: every successful
create outcome of the adapter yields a non-local id. -/
def okIdsNonLocal (oc : Item → CreateOutcome) : Prop :=
  ∀ x nid, oc x = CreateOutcome.ok nid → isLocalId nid = false

/-! ### Concrete fixtures used by witnesses and counterexamples -/

def itemR1 : Item :=
  { id := "r1", name := "Pao", quantity := 2, unitPrice := 3, total := 6,
    completed := false, createdAt := "t0", updatedAt := "t0" }

def itemR2 : Item :=
  { id := "r2", name := "Leite", quantity := 1, unitPrice := 4, total := 4,
    completed := true, createdAt := "t0", updatedAt := "t0" }

def itemR3 : Item :=
  { id := "r3", name := "Arroz", quantity := 1, unitPrice := 5, total := 5,
    completed := false, createdAt := "t0", updatedAt := "t0" }

def itemL1 : Item :=
  { id := "local-1", name := "Cafe", quantity := 2, unitPrice := 5, total := 10,
    completed := false, createdAt := "t0", updatedAt := "t0" }

/-- A second queued snapshot of the same offline-added item (after an
offline toggle): same local id, later timestamp. -/
def itemL1T : Item :=
  { itemL1 with completed := true, updatedAt := "t1" }

def itemQ9 : Item :=
  { id := "r9", name := "Feijao", quantity := 1, unitPrice := 7, total := 7,
    completed := false, createdAt := "t0", updatedAt := "t0" }

def stSync : AppState :=
  { items := [itemR1, itemR2], localStorage := [itemR1, itemR2],
    pendingChanges := [itemR1, itemR2] }

/-- Adapter outcomes: the record with id r1 succeeds, everything else fails. -/
def ocFirstOk : Item → CreateOutcome :=
  fun r => if r.id == "r1" then CreateOutcome.ok "fbX" else CreateOutcome.err

def stDup : AppState :=
  { items := [itemL1], localStorage := [itemL1],
    pendingChanges := [itemL1, itemL1T] }

/-- Adapter outcomes: the not-yet-completed snapshot succeeds with id fb1,
the completed snapshot fails. -/
def ocC2 : Item → CreateOutcome :=
  fun r => if r.completed then CreateOutcome.err else CreateOutcome.ok "fb1"

/-- Adapter outcomes: every local-id record is created as fb9. -/
def ocLocalOk : Item → CreateOutcome :=
  fun r => if isLocalId r.id then CreateOutcome.ok "fb9" else CreateOutcome.err

def stRemap : AppState :=
  { items := [itemL1, itemR1], localStorage := [itemL1, itemR1],
    pendingChanges := [itemL1] }

def badInput : NewItemInput := { name := "", quantity := 1, unitPrice := 1 }

def stOne : AppState := { items := [itemR1], localStorage := [itemR1], pendingChanges := [] }

def stLoad : AppState :=
  { items := [], localStorage := [itemR1, itemR2, itemR3], pendingChanges := [] }

def stRemove : AppState :=
  { items := [itemR1], localStorage := [itemR1], pendingChanges := [itemL1, itemQ9] }

def stToggle : AppState :=
  { items := [itemR1, itemR2], localStorage := [itemR1, itemR2], pendingChanges := [] }

/-- A demo mutation sequence: offline add, offline toggle of the added item,
online update of an existing remote item with a failing remote write,
remove, and a replay pass. -/
def opsDemo : List Op :=
  [ Op.addOp false CreateOutcome.err 5 "t1" { name := "Cafe", quantity := 2, unitPrice := 5 },
    Op.toggleOp false CallOutcome.ok "t2" "local-5",
    Op.updateOp true CallOutcome.err "t3" "local-5" { name := "Cafe", quantity := 3, unitPrice := 4 },
    Op.removeOp true CallOutcome.ok "local-5",
    Op.syncOp ocLocalOk ]

/-! ### Helper lemmas -/

theorem listAll_filter_self (p : Item → Bool) (l : List Item) :
    (l.filter p).all p = true := by
  rw [List.all_eq_true]
  intro x hx
  exact (List.mem_filter.mp hx).2

theorem listFilter_idem (p : Item → Bool) (l : List Item) :
    (l.filter p).filter p = l.filter p :=
  List.filter_eq_self.mpr (fun x hx => (List.mem_filter.mp hx).2)

theorem replayLoop_failed (oc : Item → CreateOutcome) :
    ∀ (l : List Item) (st : AppState),
      (replayLoop oc l st).2.1 = l.filter (fun r => syncFails oc r) := by
  intro l
  induction l with
  | nil => intro st; rfl
  | cons a as ih =>
      intro st
      cases hl : isLocalId a.id <;> cases hoc : oc a <;>
        simp [replayLoop, hl, hoc, List.filter_cons, syncFails, ih]

theorem syncPendingChanges_pending (oc : Item → CreateOutcome) (st : AppState) :
    (syncPendingChanges oc st).1.pendingChanges
      = st.pendingChanges.filter (fun r => syncFails oc r) := by
  unfold syncPendingChanges
  cases hq : st.pendingChanges with
  | nil => simp [hq]
  | cons a as => simp [hq, replayLoop_failed]

/-! ### C1 -/

/-- C1: During replay (syncPendingChanges) a queued record is kept in the
pending queue exactly when its remote operation fails and dropped when it
succeeds; in the two-record scenario where the adapter succeeds for the
first (remote-space) record and fails for the second, after replay the
first is gone, the second is still queued, and the in-memory collection
(and local snapshot) are unchanged. -/
theorem sync_keeps_failed_drops_succeeded :
    (∀ (oc : Item → CreateOutcome) (st : AppState),
        (syncPendingChanges oc st).1.pendingChanges
          = st.pendingChanges.filter (fun r => syncFails oc r)) ∧
    (∀ (oc : Item → CreateOutcome) (st : AppState) (a b : Item) (newId : String),
        st.pendingChanges = [a, b] →
        isLocalId a.id = false → isLocalId b.id = false →
        oc a = CreateOutcome.ok newId → oc b = CreateOutcome.err →
        (syncPendingChanges oc st).1.pendingChanges = [b] ∧
        (syncPendingChanges oc st).1.items = st.items ∧
        (syncPendingChanges oc st).1.localStorage = st.localStorage) := by
  constructor
  · exact syncPendingChanges_pending
  · intro oc st a b newId hq ha hb hoca hocb
    refine ⟨?_, ?_, ?_⟩ <;>
      simp [syncPendingChanges, hq, replayLoop, ha, hb, hoca, hocb]

/-- Witness for C1 at a concrete two-record queue: r1 succeeds, r2 fails. -/
theorem sync_keeps_failed_drops_succeeded_witness :
    stSync.pendingChanges = [itemR1, itemR2] ∧
    isLocalId itemR1.id = false ∧ isLocalId itemR2.id = false ∧
    ocFirstOk itemR1 = CreateOutcome.ok "fbX" ∧
    ocFirstOk itemR2 = CreateOutcome.err ∧
    ((syncPendingChanges ocFirstOk stSync).1.pendingChanges = [itemR2] ∧
     (syncPendingChanges ocFirstOk stSync).1.items = stSync.items ∧
     (syncPendingChanges ocFirstOk stSync).1.localStorage = stSync.localStorage) :=
  ⟨rfl, by decide, by decide, by decide, by decide,
   sync_keeps_failed_drops_succeeded.2 ocFirstOk stSync itemR1 itemR2 "fbX"
     rfl (by decide) (by decide) (by decide) (by decide)⟩

/-! ### C4 -/

/-- C4: In the startup protocol (loadItems), when online and the remote
listing succeeds with an empty collection while the local snapshot is
non-empty, the in-memory collection becomes the local snapshot (and the
snapshot itself is untouched); in particular 3 local items are retained. -/
theorem loadItems_empty_remote_keeps_local :
    ∀ st : AppState, 0 < st.localStorage.length →
      (loadItems true (some []) st).items = st.localStorage ∧
      (loadItems true (some []) st).localStorage = st.localStorage ∧
      (st.localStorage.length = 3 → (loadItems true (some []) st).items.length = 3) := by
  intro st h
  refine ⟨?_, ?_, ?_⟩ <;> simp [loadItems, h]

/-- Witness for C4: a 3-item local snapshot survives an empty remote list. -/
theorem loadItems_empty_remote_keeps_local_witness :
    0 < stLoad.localStorage.length ∧
    ((loadItems true (some []) stLoad).items = stLoad.localStorage ∧
     (loadItems true (some []) stLoad).localStorage = stLoad.localStorage ∧
     (stLoad.localStorage.length = 3 → (loadItems true (some []) stLoad).items.length = 3)) :=
  ⟨by decide, loadItems_empty_remote_keeps_local stLoad (by decide)⟩

/-! ### C7 -/

/-- C7 counterexample: handleUpdateItem performs no input validation — an
update carrying an empty name (malformed input) still mutates the
in-memory collection, so not every malformed mutation call is rejected
before any state change. -/
theorem update_skips_validation_counterexample :
    (badInput.name = "" ∨ badInput.quantity ≤ 0) ∧
    (handleUpdateItem false CallOutcome.ok "t2" "r1" badInput stOne).1.items ≠ stOne.items := by
  constructor
  · exact Or.inl rfl
  · decide

/-- C7 (amended): every ADD call whose input is malformed (empty name or
non-positive quantity) is rejected synchronously with no change to the
in-memory collection, the local snapshot store or the pending queue, and
no remote call is issued; update/toggle/remove perform no such validation. -/
theorem handleAddItem_rejects_malformed :
    ∀ (b : Bool) (oc : CreateOutcome) (nowMs : Nat) (now : String)
      (inp : NewItemInput) (st : AppState),
      (inp.name = "" ∨ inp.quantity ≤ 0) →
      handleAddItem b oc nowMs now inp st = (st, []) := by
  intro b oc nowMs now inp st h
  unfold handleAddItem
  exact if_pos h

/-- Witness for the amended C7: a non-positive quantity is rejected with
no state change. -/
theorem handleAddItem_rejects_malformed_witness :
    (badInput.name = "" ∨ badInput.quantity ≤ 0) ∧
    handleAddItem true (CreateOutcome.ok "fbX") 5 "t1" badInput stOne = (stOne, []) :=
  ⟨Or.inl rfl,
   handleAddItem_rejects_malformed true (CreateOutcome.ok "fbX") 5 "t1" badInput stOne
     (Or.inl rfl)⟩

/-! ### C10 -/

/-- C10: removing an id that is not present in the in-memory collection
leaves the collection, the local snapshot store (assuming the snapshot is
in sync with the collection, the maintained invariant) and the pending
queue unchanged, except that queue entries carrying that id are dropped;
and remove is idempotent on the state. -/
theorem remove_absent_id_frame_and_idempotent :
    ∀ (b : Bool) (oc oc2 : CallOutcome) (itemId : String) (st : AppState),
      itemId ∉ st.items.map Item.id →
      st.localStorage = st.items →
      (handleRemoveItem b oc itemId st).1.items = st.items ∧
      (handleRemoveItem b oc itemId st).1.localStorage = st.localStorage ∧
      (handleRemoveItem b oc itemId st).1.pendingChanges
        = st.pendingChanges.filter (fun r => !(r.id == itemId)) ∧
      (handleRemoveItem b oc2 itemId (handleRemoveItem b oc itemId st).1).1
        = (handleRemoveItem b oc itemId st).1 := by
  intro b oc oc2 itemId st hid hsync
  have hfilter : st.items.filter (fun it => !(it.id == itemId)) = st.items := by
    refine List.filter_eq_self.mpr ?_
    intro x hx
    have : x.id ≠ itemId := fun he => hid (he ▸ List.mem_map_of_mem Item.id hx)
    simp [this]
  refine ⟨?_, ?_, ?_, ?_⟩ <;>
    simp [handleRemoveItem, saveToStorage, hfilter, hsync, listFilter_idem]

/-- Witness for C10: removing the absent id r9 keeps items and snapshot,
drops the queued r9 record, and a second remove is a no-op. -/
theorem remove_absent_id_frame_and_idempotent_witness :
    ("r9" ∉ stRemove.items.map Item.id) ∧
    stRemove.localStorage = stRemove.items ∧
    ((handleRemoveItem true CallOutcome.ok "r9" stRemove).1.items = stRemove.items ∧
     (handleRemoveItem true CallOutcome.ok "r9" stRemove).1.localStorage = stRemove.localStorage ∧
     (handleRemoveItem true CallOutcome.ok "r9" stRemove).1.pendingChanges
       = stRemove.pendingChanges.filter (fun r => !(r.id == "r9")) ∧
     (handleRemoveItem true CallOutcome.err "r9"
         (handleRemoveItem true CallOutcome.ok "r9" stRemove).1).1
       = (handleRemoveItem true CallOutcome.ok "r9" stRemove).1) :=
  ⟨by decide, by decide,
   remove_absent_id_frame_and_idempotent true CallOutcome.ok CallOutcome.err "r9" stRemove
     (by decide) (by decide)⟩

/-! ### C3 -/

theorem replayLoop_trace_no_local (oc : Item → CreateOutcome) :
    ∀ (l : List Item) (st : AppState) (c : RemoteCall),
      c ∈ (replayLoop oc l st).2.2 → usesLocalDocId c = false := by
  intro l
  induction l with
  | nil => intro st c hc; cases hc
  | cons a as ih =>
      intro st c hc
      cases hl : isLocalId a.id <;> cases hoc : oc a <;>
        simp [replayLoop, hl, hoc] at hc <;>
        (rcases hc with rfl | hc
         · simp [usesLocalDocId, hl]
         · exact ih _ _ hc)

theorem sync_trace_no_local (oc : Item → CreateOutcome) (st : AppState) :
    ∀ c ∈ (syncPendingChanges oc st).2, usesLocalDocId c = false := by
  intro c hc
  unfold syncPendingChanges at hc
  cases hq : st.pendingChanges with
  | nil => rw [hq] at hc; simp at hc
  | cons a as =>
      rw [hq] at hc
      simp only [List.isEmpty_cons, Bool.false_eq_true, if_false] at hc
      exact replayLoop_trace_no_local oc (a :: as) st c hc

/-- C3: no remote-store update or delete call is ever issued with a
local-space id: every call trace of handleUpdateItem, toggleItemCompletion,
handleRemoveItem, handleAddItem and syncPendingChanges, from any state,
contains no update/delete addressed at a local-space id. -/
theorem no_remote_update_delete_with_local_id :
    (∀ (b : Bool) (oc : CallOutcome) (now itemId : String) (inp : NewItemInput) (st : AppState),
        ((handleUpdateItem b oc now itemId inp st).2).all (fun c => !usesLocalDocId c) = true) ∧
    (∀ (b : Bool) (oc : CallOutcome) (now itemId : String) (st : AppState),
        ((toggleItemCompletion b oc now itemId st).2).all (fun c => !usesLocalDocId c) = true) ∧
    (∀ (b : Bool) (oc : CallOutcome) (itemId : String) (st : AppState),
        ((handleRemoveItem b oc itemId st).2).all (fun c => !usesLocalDocId c) = true) ∧
    (∀ (b : Bool) (oc : CreateOutcome) (nowMs : Nat) (now : String)
        (inp : NewItemInput) (st : AppState),
        ((handleAddItem b oc nowMs now inp st).2).all (fun c => !usesLocalDocId c) = true) ∧
    (∀ (oc : Item → CreateOutcome) (st : AppState),
        ((syncPendingChanges oc st).2).all (fun c => !usesLocalDocId c) = true) := by
  refine ⟨?_, ?_, ?_, ?_, ?_⟩
  · intro b oc now itemId inp st
    cases hfind : st.items.find? (fun it => it.id == itemId) with
    | none => simp [handleUpdateItem, hfind]
    | some a =>
        have ha : a.id = itemId := by simpa using List.find?_some hfind
        by_cases hg : (b && !isLocalId itemId) = true
        · have hloc : isLocalId itemId = false := by
            have hh := hg
            simp only [Bool.and_eq_true, Bool.not_eq_true'] at hh
            exact hh.2
          cases oc <;>
            (simp only [handleUpdateItem, hfind]
             rw [if_pos hg]
             simp [usesLocalDocId, ha, hloc])
        · cases oc <;>
            (simp only [handleUpdateItem, hfind]
             rw [if_neg hg]
             simp)
  · intro b oc now itemId st
    cases hfind : st.items.find? (fun it => it.id == itemId) with
    | none => simp [toggleItemCompletion, hfind]
    | some a =>
        have ha : a.id = itemId := by simpa using List.find?_some hfind
        by_cases hg : (b && !isLocalId itemId) = true
        · have hloc : isLocalId itemId = false := by
            have hh := hg
            simp only [Bool.and_eq_true, Bool.not_eq_true'] at hh
            exact hh.2
          cases oc <;>
            (simp only [toggleItemCompletion, hfind]
             rw [if_pos hg]
             simp [usesLocalDocId, ha, hloc])
        · cases oc <;>
            (simp only [toggleItemCompletion, hfind]
             rw [if_neg hg]
             simp)
  · intro b oc itemId st
    by_cases hg : (b && !isLocalId itemId) = true
    · have hloc : isLocalId itemId = false := by
        have hh := hg
        simp only [Bool.and_eq_true, Bool.not_eq_true'] at hh
        exact hh.2
      simp only [handleRemoveItem]
      rw [if_pos hg]
      simp [usesLocalDocId, hloc]
    · simp only [handleRemoveItem]
      rw [if_neg hg]
      simp
  · intro b oc nowMs now inp st
    by_cases hv : (inp.name = "" ∨ inp.quantity ≤ 0)
    · simp only [handleAddItem]
      rw [if_pos hv]
      simp
    · cases b <;> cases oc <;>
        (simp only [handleAddItem]
         rw [if_neg hv]
         simp [usesLocalDocId])
  · intro oc st
    rw [List.all_eq_true]
    intro c hc
    simp [sync_trace_no_local oc st c hc]

/-! ### C8 -/

theorem replayLoop_no_create_for (oc : Item → CreateOutcome) (itemId : String) :
    ∀ (l : List Item) (st : AppState),
      (∀ r ∈ l, (r.id == itemId) = false) →
      ∀ c ∈ (replayLoop oc l st).2.2, createForId itemId c = false := by
  intro l
  induction l with
  | nil => intro st _ c hc; cases hc
  | cons a as ih =>
      intro st h c hc
      have ha : (a.id == itemId) = false := h a (List.mem_cons_self a as)
      have hrest : ∀ r ∈ as, (r.id == itemId) = false :=
        fun r hr => h r (List.mem_cons_of_mem a hr)
      cases hl : isLocalId a.id <;> cases hoc : oc a <;>
        simp [replayLoop, hl, hoc] at hc <;>
        (rcases hc with rfl | hc
         · simp [createForId, ha]
         · exact ih _ hrest c hc)

theorem sync_trace_no_create_for (oc : Item → CreateOutcome) (itemId : String)
    (st : AppState) (h : ∀ r ∈ st.pendingChanges, (r.id == itemId) = false) :
    ∀ c ∈ (syncPendingChanges oc st).2, createForId itemId c = false := by
  intro c hc
  unfold syncPendingChanges at hc
  cases hq : st.pendingChanges with
  | nil => rw [hq] at hc; simp at hc
  | cons a as =>
      rw [hq] at hc
      simp only [List.isEmpty_cons, Bool.false_eq_true, if_false] at hc
      exact replayLoop_no_create_for oc itemId (a :: as) st (hq ▸ h) c hc

/-- C8: after a remove, the pending queue contains no record with the
removed id, and a subsequent replay issues no remote create produced by a
queue record with that id. -/
theorem remove_purges_queue_and_no_replay_create :
    ∀ (b : Bool) (oc : CallOutcome) (ocSync : Item → CreateOutcome)
      (itemId : String) (st : AppState),
      ((handleRemoveItem b oc itemId st).1.pendingChanges).all
          (fun r => !(r.id == itemId)) = true ∧
      ((syncPendingChanges ocSync (handleRemoveItem b oc itemId st).1).2).all
          (fun c => !createForId itemId c) = true := by
  intro b oc ocSync itemId st
  have hq : ((handleRemoveItem b oc itemId st).1.pendingChanges).all
      (fun r => !(r.id == itemId)) = true := by
    simp only [handleRemoveItem, saveToStorage]
    exact listAll_filter_self _ _
  refine ⟨hq, ?_⟩
  rw [List.all_eq_true]
  intro c hc
  have hmem : ∀ r ∈ (handleRemoveItem b oc itemId st).1.pendingChanges,
      (r.id == itemId) = false := by
    rw [List.all_eq_true] at hq
    intro r hr
    simpa using hq r hr
  simp [sync_trace_no_create_for ocSync itemId _ hmem c hc]

/-! ### C5 -/

theorem foldl_add_totals (l : List Item) (a : Rat) :
    l.foldl (fun sum it => sum + it.total) a = a + (l.map Item.total).sum := by
  induction l generalizing a with
  | nil => simp
  | cons x xs ih =>
      rw [List.foldl_cons, ih, List.map_cons, List.sum_cons]
      ring

theorem filtered_totals_eq (l : List Item) :
    ((l.filter (fun it => !it.completed)).map Item.total).sum
      = (l.map (fun it => if it.completed then 0 else it.total)).sum := by
  induction l with
  | nil => rfl
  | cons x xs ih =>
      cases hx : x.completed <;>
        simp [List.filter_cons, hx, ih]

theorem calculateTotal_eq_spec (st : AppState) :
    calculateTotal st = pendingTotalSpec st.items := by
  unfold calculateTotal pendingTotalSpec
  rw [foldl_add_totals, zero_add, filtered_totals_eq]

/-- C5: the displayed aggregate total (calculateTotal) equals the sum of
the total field over exactly the items whose completed flag is false, and
this holds after any sequence of add/update/remove/toggle/sync operations
from any state. -/
theorem calculateTotal_excludes_completed_after_any_ops :
    ∀ (ops : List Op) (st : AppState),
      calculateTotal (applyOps ops st) = pendingTotalSpec (applyOps ops st).items :=
  fun ops st => calculateTotal_eq_spec (applyOps ops st)

/-! ### C6 -/

theorem totalsOk_mem (l : List Item) (h : totalsOk l = true) :
    ∀ x ∈ l, (x.total == (x.quantity : Rat) * x.unitPrice) = true := by
  rw [totalsOk, List.all_eq_true] at h
  exact h

theorem totalsOk_of_mem (l : List Item)
    (h : ∀ x ∈ l, (x.total == (x.quantity : Rat) * x.unitPrice) = true) :
    totalsOk l = true := by
  rw [totalsOk, List.all_eq_true]
  exact h

theorem remapId_totalsOk (oldId newId : String) (l : List Item)
    (h : totalsOk l = true) : totalsOk (remapId oldId newId l) = true := by
  refine totalsOk_of_mem _ ?_
  intro x hx
  simp only [remapId] at hx
  rcases List.mem_map.mp hx with ⟨y, hy, rfl⟩
  cases hyid : (y.id == oldId) <;> simp [hyid, totalsOk_mem l h y hy]

theorem replayLoop_totalsOk (oc : Item → CreateOutcome) :
    ∀ (l : List Item) (st : AppState), totalsOk st.items = true →
      totalsOk ((replayLoop oc l st).1).items = true := by
  intro l
  induction l with
  | nil => intro st h; exact h
  | cons a as ih =>
      intro st h
      cases hl : isLocalId a.id <;> cases hoc : oc a <;>
        simp [replayLoop, hl, hoc] <;>
        exact ih _ (by first
          | exact h
          | exact remapId_totalsOk _ _ _ h)

theorem syncPendingChanges_totalsOk (oc : Item → CreateOutcome) (st : AppState)
    (h : totalsOk st.items = true) :
    totalsOk ((syncPendingChanges oc st).1).items = true := by
  unfold syncPendingChanges
  cases hq : st.pendingChanges with
  | nil => simpa [hq] using h
  | cons a as => simpa [hq] using replayLoop_totalsOk oc (a :: as) st h

theorem mkNewItem_totalOk (iid : String) (inp : NewItemInput) (now : String) :
    ((mkNewItem iid inp now).total
      == ((mkNewItem iid inp now).quantity : Rat) * (mkNewItem iid inp now).unitPrice) = true := by
  simp [mkNewItem]

theorem applyOp_totalsOk (op : Op) (st : AppState) (h : totalsOk st.items = true) :
    totalsOk (applyOp st op).items = true := by
  cases op with
  | addOp b oc ms now inp =>
      by_cases hv : (inp.name = "" ∨ inp.quantity ≤ 0)
      · simpa [applyOp, handleAddItem, hv] using h
      · cases b <;> cases oc <;>
          (simp only [applyOp, handleAddItem]
           rw [if_neg hv]
           simp only [Bool.false_eq_true, if_false, if_true, saveToStorage]
           refine totalsOk_of_mem _ ?_
           intro x hx
           rcases List.mem_append.mp hx with hx | hx
           · exact totalsOk_mem _ h x hx
           · rw [List.mem_singleton.mp hx]
             exact mkNewItem_totalOk _ _ _)
  | updateOp b oc now iid inp =>
      cases hfind : st.items.find? (fun it => it.id == iid) with
      | none => simpa [applyOp, handleUpdateItem, hfind] using h
      | some a =>
          have hmap : totalsOk (st.items.map (fun it =>
              if it.id == iid then
                { a with
                    name := inp.name
                    quantity := inp.quantity
                    unitPrice := inp.unitPrice
                    total := (inp.quantity : Rat) * inp.unitPrice
                    updatedAt := now }
              else it)) = true := by
            refine totalsOk_of_mem _ ?_
            intro x hx
            rcases List.mem_map.mp hx with ⟨y, hy, rfl⟩
            cases hyid : (y.id == iid) <;> simp [hyid, totalsOk_mem _ h y hy]
          by_cases hg : (b && !isLocalId iid) = true
          · cases oc <;>
              (simp only [applyOp, handleUpdateItem, hfind]
               rw [if_pos hg]
               simpa [saveToStorage] using hmap)
          · cases oc <;>
              (simp only [applyOp, handleUpdateItem, hfind]
               rw [if_neg hg]
               simpa [saveToStorage] using hmap)
  | toggleOp b oc now iid =>
      cases hfind : st.items.find? (fun it => it.id == iid) with
      | none => simpa [applyOp, toggleItemCompletion, hfind] using h
      | some a =>
          have hamem := List.mem_of_find?_eq_some hfind
          have hmap : totalsOk (st.items.map (fun it =>
              if it.id == iid then
                { a with completed := !a.completed, updatedAt := now }
              else it)) = true := by
            refine totalsOk_of_mem _ ?_
            intro x hx
            rcases List.mem_map.mp hx with ⟨y, hy, rfl⟩
            cases hyid : (y.id == iid) <;>
              simp [hyid, totalsOk_mem _ h y hy, totalsOk_mem _ h a hamem]
          by_cases hg : (b && !isLocalId iid) = true
          · cases oc <;>
              (simp only [applyOp, toggleItemCompletion, hfind]
               rw [if_pos hg]
               simpa [saveToStorage] using hmap)
          · cases oc <;>
              (simp only [applyOp, toggleItemCompletion, hfind]
               rw [if_neg hg]
               simpa [saveToStorage] using hmap)
  | removeOp b oc iid =>
      simp only [applyOp, handleRemoveItem, saveToStorage]
      refine totalsOk_of_mem _ ?_
      intro x hx
      exact totalsOk_mem _ h x (List.mem_filter.mp hx).1
  | syncOp oc => exact syncPendingChanges_totalsOk oc st h

/-- C6: the derived-total invariant (total = quantity times unitPrice for
every item of the in-memory collection) is preserved by every sequence of
add/update/remove/toggle/sync operations. -/
theorem total_eq_quantity_mul_unitPrice_invariant :
    ∀ (ops : List Op) (st : AppState),
      totalsOk st.items = true → totalsOk (applyOps ops st).items = true := by
  intro ops
  induction ops with
  | nil => intro st h; exact h
  | cons op ops ih =>
      intro st h
      exact ih _ (applyOp_totalsOk op st h)

unseal Rat.mul Rat.add in
/-- Witness for C6: the invariant holds along the demo mutation sequence
(offline add, offline toggle, online update with remote failure, remove,
replay). -/
theorem total_eq_quantity_mul_unitPrice_invariant_witness :
    totalsOk stOne.items = true ∧ totalsOk (applyOps opsDemo stOne).items = true :=
  ⟨by decide, total_eq_quantity_mul_unitPrice_invariant opsDemo stOne (by decide)⟩

/-! ### C9 -/

theorem find?_eq_of_nodup_mem (l : List Item) (x : Item) (tid : String)
    (hn : (l.map Item.id).Nodup) (hx : x ∈ l) (hid : x.id = tid) :
    l.find? (fun it => it.id == tid) = some x := by
  induction l with
  | nil => cases hx
  | cons a as ih =>
      rw [List.map_cons, List.nodup_cons] at hn
      rcases List.mem_cons.mp hx with rfl | h2
      · exact List.find?_cons_of_pos as (by simp [hid])
      · have hne : a.id ≠ tid := by
          intro he
          exact hn.1 (by
            have : x.id ∈ as.map Item.id := List.mem_map_of_mem Item.id h2
            rwa [hid, ← he] at this)
        rw [List.find?_cons_of_neg as (by simp [hne]), ih hn.2 h2]

theorem toggle_items_shape (b : Bool) (oc : CallOutcome) (now tid : String)
    (st : AppState) (a : Item)
    (hfind : st.items.find? (fun it => it.id == tid) = some a) :
    (toggleItemCompletion b oc now tid st).1.items
      = st.items.map (fun it =>
          if it.id == tid then { a with completed := !a.completed, updatedAt := now } else it) := by
  by_cases hg : (b && !isLocalId tid) = true
  · cases oc <;>
      (simp only [toggleItemCompletion, hfind]
       rw [if_pos hg]
       simp [saveToStorage])
  · cases oc <;>
      (simp only [toggleItemCompletion, hfind]
       rw [if_neg hg]
       simp [saveToStorage])

/-- C9: for an id whose item is present (and with the collection ids
unique, the maintained invariant), toggleItemCompletion maps the
collection pointwise: the matching item gets exactly its completed flag
negated and its updatedAt refreshed, every other item is unchanged, and
the collection length is unchanged.  (When the id is absent the map is
the identity and the state is returned untouched.) -/
theorem toggle_frame_effect :
    ∀ (b : Bool) (oc : CallOutcome) (now tid : String) (st : AppState),
      (st.items.map Item.id).Nodup →
      (toggleItemCompletion b oc now tid st).1.items
        = st.items.map (fun it =>
            if it.id == tid then { it with completed := !it.completed, updatedAt := now } else it) ∧
      (toggleItemCompletion b oc now tid st).1.items.length = st.items.length := by
  intro b oc now tid st hn
  have hmain : (toggleItemCompletion b oc now tid st).1.items
      = st.items.map (fun it =>
          if it.id == tid then { it with completed := !it.completed, updatedAt := now } else it) := by
    cases hfind : st.items.find? (fun it => it.id == tid) with
    | none =>
        have hall : ∀ x ∈ st.items, (x.id == tid) = false := by
          intro x hx
          have := List.find?_eq_none.mp hfind x hx
          simpa using this
        have hid : st.items.map (fun it =>
            if it.id == tid then { it with completed := !it.completed, updatedAt := now } else it)
            = st.items := by
          have := List.map_congr_left (l := st.items)
            (f := fun it => if it.id == tid then { it with completed := !it.completed, updatedAt := now } else it)
            (g := fun it => it) (fun x hx => by simp [hall x hx])
          simpa using this
        simp only [toggleItemCompletion, hfind]
        exact hid.symm
    | some a =>
        rw [toggle_items_shape b oc now tid st a hfind]
        refine List.map_congr_left ?_
        intro x hx
        cases hxid : (x.id == tid) with
        | false => simp [hxid]
        | true =>
            have hxtid : x.id = tid := by simpa using hxid
            have := find?_eq_of_nodup_mem st.items x tid hn hx hxtid
            rw [hfind] at this
            cases Option.some.inj this
            simp [hxid]
  exact ⟨hmain, by rw [hmain, List.length_map]⟩

/-- Witness for C9: toggling r1 in a two-item collection flips exactly its
completed flag and timestamp and keeps the rest. -/
theorem toggle_frame_effect_witness :
    (stToggle.items.map Item.id).Nodup ∧
    ((toggleItemCompletion false CallOutcome.ok "t5" "r1" stToggle).1.items
        = stToggle.items.map (fun it =>
            if it.id == "r1" then { it with completed := !it.completed, updatedAt := "t5" } else it) ∧
     (toggleItemCompletion false CallOutcome.ok "t5" "r1" stToggle).1.items.length
        = stToggle.items.length) :=
  ⟨by decide, toggle_frame_effect false CallOutcome.ok "t5" "r1" stToggle (by decide)⟩

/-! ### C2 -/

/-- C2 counterexample: the item added offline (itemL1, id local-1) has its
queued create replayed successfully (assigned id fb1), yet the other
still-queued record for the same item keeps the old local id: after the
replay the queue still references local-1 and a local-space id remains. -/
theorem queued_records_not_remapped_counterexample :
    isLocalId itemL1.id = true ∧
    ocC2 itemL1 = CreateOutcome.ok "fb1" ∧
    itemL1 ∈ stDup.pendingChanges ∧
    (syncPendingChanges ocC2 stDup).1.pendingChanges = [itemL1T] ∧
    itemL1T.id = itemL1.id ∧
    ((syncPendingChanges ocC2 stDup).1.pendingChanges.all
        (fun r => !isLocalId r.id)) = false ∧
    ((syncPendingChanges ocC2 stDup).1.pendingChanges.all
        (fun r => r.id == "fb1")) = false := by
  refine ⟨by decide, by decide, by decide, by decide, by decide, by decide, by decide⟩

theorem remapId_clears (oldId newId : String) (l : List Item)
    (h : (newId == oldId) = false) :
    ∀ x ∈ remapId oldId newId l, (x.id == oldId) = false := by
  intro x hx
  simp only [remapId] at hx
  rcases List.mem_map.mp hx with ⟨y, _, rfl⟩
  cases hyid : (y.id == oldId) <;> simp_all

theorem remapId_keeps_clear (oldId newId bad : String) (l : List Item)
    (hnew : (newId == bad) = false)
    (h : ∀ x ∈ l, (x.id == bad) = false) :
    ∀ x ∈ remapId oldId newId l, (x.id == bad) = false := by
  intro x hx
  simp only [remapId] at hx
  rcases List.mem_map.mp hx with ⟨y, hy, rfl⟩
  cases hyid : (y.id == oldId) <;> simp_all [h y hy]

theorem ok_id_ne_local (oc : Item → CreateOutcome) (hoc : okIdsNonLocal oc)
    (a : Item) (nid : String) (hnid : oc a = CreateOutcome.ok nid)
    (bad : String) (hb : isLocalId bad = true) : (nid == bad) = false := by
  have hnl : isLocalId nid = false := hoc a nid hnid
  refine beq_eq_false_iff_ne.mpr ?_
  intro he
  rw [he, hb] at hnl
  cases hnl

theorem replayLoop_keeps_clear (oc : Item → CreateOutcome) (bad : String)
    (hb : isLocalId bad = true) (hoc : okIdsNonLocal oc) :
    ∀ (l : List Item) (st : AppState),
      (∀ x ∈ st.items, (x.id == bad) = false) →
      (∀ x ∈ st.localStorage, (x.id == bad) = false) →
      (∀ x ∈ (replayLoop oc l st).1.items, (x.id == bad) = false) ∧
      (∀ x ∈ (replayLoop oc l st).1.localStorage, (x.id == bad) = false) := by
  intro l
  induction l with
  | nil => intro st h1 h2; exact ⟨h1, h2⟩
  | cons a as ih =>
      intro st h1 h2
      cases hl : isLocalId a.id <;> cases hoc2 : oc a <;>
        simp only [replayLoop, hl, hoc2, Bool.not_false, Bool.not_true,
          if_true, if_false, Bool.false_eq_true, Bool.true_eq_false]
      · exact ih st h1 h2
      · exact ih st h1 h2
      · rename_i nid
        have hne : (nid == bad) = false := ok_id_ne_local oc hoc a nid hoc2 bad hb
        exact ih _ (remapId_keeps_clear a.id nid bad st.items hne h1)
          (remapId_keeps_clear a.id nid bad st.localStorage hne h2)
      · exact ih st h1 h2

theorem replayLoop_clears_mem (oc : Item → CreateOutcome) (r : Item)
    (nid : String) (hr : isLocalId r.id = true)
    (hok : oc r = CreateOutcome.ok nid) (hoc : okIdsNonLocal oc) :
    ∀ (l : List Item) (st : AppState), r ∈ l →
      (∀ x ∈ (replayLoop oc l st).1.items, (x.id == r.id) = false) ∧
      (∀ x ∈ (replayLoop oc l st).1.localStorage, (x.id == r.id) = false) := by
  intro l
  induction l with
  | nil => intro st h; cases h
  | cons a as ih =>
      intro st hmem
      by_cases har : a = r
      · subst har
        have hne : (nid == a.id) = false := ok_id_ne_local oc hoc a nid hok a.id hr
        simp only [replayLoop, hr, hok, Bool.not_true, Bool.false_eq_true, if_false]
        exact replayLoop_keeps_clear oc a.id hr hoc as _
          (remapId_clears a.id nid st.items hne)
          (remapId_clears a.id nid st.localStorage hne)
      · have hmem2 : r ∈ as := by
          rcases List.mem_cons.mp hmem with h | h
          · exact absurd h.symm har
          · exact h
        cases hl : isLocalId a.id <;> cases hoc2 : oc a <;>
          simp only [replayLoop, hl, hoc2, Bool.not_false, Bool.not_true,
            if_true, if_false, Bool.false_eq_true, Bool.true_eq_false] <;>
          exact ih _ hmem2

/-- C2 (amended): for an item added while offline whose queued record is
successfully replayed via remote create (with remote-assigned ids never in
the local space), after the replay no reference to its old local id
remains in the in-memory collection or in the local snapshot store (both
were remapped to the new id); other still-queued records for the same
item are NOT remapped and may retain the old local id, as the
counterexample shows. -/
theorem id_remap_in_memory_and_snapshot :
    ∀ (oc : Item → CreateOutcome) (st : AppState) (r : Item) (nid : String),
      r ∈ st.pendingChanges → isLocalId r.id = true →
      oc r = CreateOutcome.ok nid → okIdsNonLocal oc →
      ((syncPendingChanges oc st).1.items.all (fun x => !(x.id == r.id)) = true ∧
       (syncPendingChanges oc st).1.localStorage.all (fun x => !(x.id == r.id)) = true) := by
  intro oc st r nid hmem hr hok hoc
  unfold syncPendingChanges
  cases hq : st.pendingChanges with
  | nil => rw [hq] at hmem; cases hmem
  | cons a as =>
      rw [hq] at hmem
      have hclear := replayLoop_clears_mem oc r nid hr hok hoc (a :: as) st hmem
      constructor <;>
        (rw [List.all_eq_true]
         intro x hx
         simp only [List.isEmpty_cons, Bool.false_eq_true, if_false] at hx)
      · simpa using hclear.1 x hx
      · simpa using hclear.2 x hx

/-- Witness for the amended C2: replaying the offline-added itemL1 leaves
no local-1 reference in the collection or the snapshot. -/
theorem id_remap_in_memory_and_snapshot_witness :
    itemL1 ∈ stRemap.pendingChanges ∧
    isLocalId itemL1.id = true ∧
    ocLocalOk itemL1 = CreateOutcome.ok "fb9" ∧
    ((syncPendingChanges ocLocalOk stRemap).1.items.all
        (fun x => !(x.id == itemL1.id)) = true ∧
     (syncPendingChanges ocLocalOk stRemap).1.localStorage.all
        (fun x => !(x.id == itemL1.id)) = true) :=
  ⟨by decide, by decide, by decide,
   id_remap_in_memory_and_snapshot ocLocalOk stRemap itemL1 "fb9"
     (by decide) (by decide) (by decide)
     (fun x nid h => by
       by_cases hx : isLocalId x.id = true
       · have : CreateOutcome.ok "fb9" = CreateOutcome.ok nid := by
           simpa [ocLocalOk, hx] using h
         cases CreateOutcome.ok.inj this
         decide
       · have hx2 : isLocalId x.id = false := by simpa using hx
         simp [ocLocalOk, hx2] at h)⟩
